import Mathlib

/-!
Verification of the DXF-to-G-code conversion core (`src/dxf2gcode.py`, class
`DXFToGcode`) against its specification.

The embedding models coordinates as real numbers, the emitted G-code lines as
an inductive `Cmd` type carrying the same payload the formatted strings carry
(3-decimal text formatting is an interface concern and is not modelled), and
the mutable converter object as an explicit state record `St` threaded through
each method.  File reading is modelled by handing `process_dxf` an
`Option (List Entity)`: `none` is the case in which `ezdxf.readfile` raises
and the `except` branch returns `False`.

The source's `Vec2.normalize` raises `ZeroDivisionError` on the zero vector,
which the polyline loop hits exactly when a processed vertex pair has
coincident endpoints and `|bulge| >= 1e-3`; the exception propagates out of
`process_dxf` (no handler encloses the entity loop), aborting the conversion.
The total functions below collapse that division by zero to `0`; the fallible
variants `processPair?`, `lwpolyLoop?` and `process_lwpolyline?` model the
raise explicitly as `none` and agree with the total functions on every `some`
result.  Claims whose truth depends on the crashing inputs are settled
against the fallible variants.
-/

namespace Dxf2Gcode

noncomputable section

/-- Planar point, modelling `ezdxf.math.Vec2`. -/
abbrev Vec2 := ℝ × ℝ

/-- Model of `Vec2.distance(other)`: Euclidean distance between two points. -/
def distance (p q : Vec2) : ℝ :=
  Real.sqrt ((p.1 - q.1) ^ 2 + (p.2 - q.2) ^ 2)

/-- Model of `Vec2.magnitude`: Euclidean norm. -/
def magnitude (v : Vec2) : ℝ :=
  Real.sqrt (v.1 ^ 2 + v.2 ^ 2)

/-- Model of `Vec2.orthogonal(ccw=True)`: rotate 90 degrees counterclockwise. -/
def orthogonal_ccw (v : Vec2) : Vec2 := (-v.2, v.1)

/-- Model of `Vec2.normalize()`: scale to unit length (source raises on the zero
vector; here the division by zero magnitude yields `(0, 0)`). -/
def normalize (v : Vec2) : Vec2 :=
  (v.1 / magnitude v, v.2 / magnitude v)

/-- One emitted G-code command.  Constructors mirror the strings the source
appends to `self.gcode`: `M5`, `M4 S{power}`, `G0 X Y`, `G1 X Y F{feed}` and
`G2`/`G3` `X Y I J F{feed}` (`G2G3 true` is `G2`, i.e. clockwise). -/
inductive Cmd where
  | M5 : Cmd
  | M4 (power : ℤ) : Cmd
  | G0 (x y : ℝ) : Cmd
  | G1 (x y : ℝ) (feed : ℤ) : Cmd
  | G2G3 (clockwise : Bool) (x y i j : ℝ) (feed : ℤ) : Cmd

/-- The state of a `DXFToGcode` instance: configuration fields plus the
mutable `gcode` list, `current_pos` and `laser_on` flag. -/
structure St where
  power : ℤ
  feed_rate : ℤ
  rapid_rate : ℤ
  gcode : List Cmd
  current_pos : Vec2
  laser_on : Bool

/-- Model of `DXFToGcode.__init__`: empty command list, position `Vec2(0, 0)`,
laser off. -/
def init (power feed_rate rapid_rate : ℤ) : St :=
  { power := power, feed_rate := feed_rate, rapid_rate := rapid_rate,
    gcode := [], current_pos := (0, 0), laser_on := false }

/-- Model of `DXFToGcode.laser_off` (lines 47-50): emit `M5` only if the laser is on. -/
def laser_off (s : St) : St :=
  if s.laser_on then
    { s with gcode := s.gcode ++ [Cmd.M5], laser_on := false }
  else s

/-- Model of `DXFToGcode.laser_on_cmd` (lines 52-55): emit `M4 S{power}` only if the
laser is off. -/
def laser_on_cmd (s : St) : St :=
  if !s.laser_on then
    { s with gcode := s.gcode ++ [Cmd.M4 s.power], laser_on := true }
  else s

/-- Model of `DXFToGcode.rapid_move` (lines 57-60): switch the laser off, emit `G0`,
update the position. -/
def rapid_move (x y : ℝ) (s : St) : St :=
  let s1 := laser_off s
  { s1 with gcode := s1.gcode ++ [Cmd.G0 x y], current_pos := (x, y) }

/-- Model of `DXFToGcode.linear_move` (lines 62-65): switch the laser on, emit `G1`,
update the position. -/
def linear_move (x y : ℝ) (s : St) : St :=
  let s1 := laser_on_cmd s
  { s1 with gcode := s1.gcode ++ [Cmd.G1 x y s1.feed_rate], current_pos := (x, y) }

/-- Model of `DXFToGcode.arc_move` (lines 67-73): switch the laser on, emit `G2`/`G3`
with center offsets `I = cx - current_pos.x`, `J = cy - current_pos.y`,
update the position. -/
def arc_move (x y cx cy : ℝ) (clockwise : Bool) (s : St) : St :=
  let s1 := laser_on_cmd s
  { s1 with
      gcode := s1.gcode ++
        [Cmd.G2G3 clockwise x y (cx - s1.current_pos.1) (cy - s1.current_pos.2) s1.feed_rate],
      current_pos := (x, y) }

/-- Model of `DXFToGcode.process_line` (lines 75-80): rapid to the start point only
when it is farther than 0.001 from the current position, then cut to the end
point. -/
def process_line (a b : Vec2) (s : St) : St :=
  let s1 := if distance s.current_pos a > 0.001 then rapid_move a.1 a.2 s else s
  linear_move b.1 b.2 s1

/-- Model of `DXFToGcode.process_circle` (lines 82-89): rapid (unconditionally) to
`(center.x + radius, center.y)`, then two clockwise arcs splitting the circle
at that point. -/
def process_circle (center : Vec2) (radius : ℝ) (s : St) : St :=
  let start_x := center.1 + radius
  let start_y := center.2
  let s1 := rapid_move start_x start_y s
  let s2 := arc_move (center.1 - radius) center.2 center.1 center.2 true s1
  arc_move start_x start_y center.1 center.2 true s2

/-- Model of `DXFToGcode.process_arc` (lines 91-102): endpoints from center, radius and
degree angles (`math.radians` is multiplication by `pi / 180`); conditional
rapid to the start point; one counterclockwise arc. -/
def process_arc (center : Vec2) (radius start_angle end_angle : ℝ) (s : St) : St :=
  let a1 := start_angle * Real.pi / 180
  let a2 := end_angle * Real.pi / 180
  let sp : Vec2 := (center.1 + radius * Real.cos a1, center.2 + radius * Real.sin a1)
  let ep : Vec2 := (center.1 + radius * Real.cos a2, center.2 + radius * Real.sin a2)
  let s1 := if distance s.current_pos sp > 0.001 then rapid_move sp.1 sp.2 s else s
  arc_move ep.1 ep.2 center.1 center.2 false s1

/-- Included angle of the bulge arc, line 121: `angle = 4 * atan(bulge)`. -/
def bulgeAngle (bulge : ℝ) : ℝ := 4 * Real.arctan bulge

/-- Bulge arc radius, lines 122-123: `radius = dist / (2 * sin(angle / 2))`.
There is no guard on the divisor in the source. -/
def bulgeRadius (p1 p2 : Vec2) (bulge : ℝ) : ℝ :=
  distance p1 p2 / (2 * Real.sin (bulgeAngle bulge / 2))

/-- Bulge arc center, lines 124-127: midpoint plus the counterclockwise
perpendicular unit vector scaled by `h = radius * cos(angle / 2)`. -/
def bulgeCenter (p1 p2 : Vec2) (bulge : ℝ) : Vec2 :=
  let radius := bulgeRadius p1 p2 bulge
  let mid : Vec2 := ((p1.1 + p2.1) / 2, (p1.2 + p2.2) / 2)
  let h := radius * Real.cos (bulgeAngle bulge / 2)
  let perp := normalize (orthogonal_ccw (p2.1 - p1.1, p2.2 - p1.2))
  (mid.1 + perp.1 * h, mid.2 + perp.2 * h)

/-- Body of the `process_lwpolyline` loop for one consecutive vertex pair
(lines 116-128): a straight cut when `abs(bulge) < 0.001`, otherwise a bulge
arc, clockwise exactly when `bulge < 0`. -/
def processPair (p1 p2 : Vec2) (bulge : ℝ) (s : St) : St :=
  if |bulge| < 0.001 then
    linear_move p2.1 p2.2 s
  else
    let center := bulgeCenter p1 p2 bulge
    arc_move p2.1 p2.2 center.1 center.2 (decide (bulge < 0)) s

/-- The `for i in range(len(points))` loop of `process_lwpolyline`
(lines 110-128), written with explicit fuel: the loop runs at most
`len(points)` iterations from `i = 0`, stops (`break`) when
`(i + 1) % len(points) == 0` on an open polyline, and otherwise processes the
pair `points[i]`, `points[(i + 1) % len(points)]`.  Line 114 selects
`first[4]` as the bulge when `i == 0`, which equals `points[i][4]` there. -/
def lwpolyLoop (points : List (ℝ × ℝ × ℝ)) (is_closed : Bool) :
    ℕ → ℕ → St → St
  | 0, _, s => s
  | fuel + 1, i, s =>
    if h : i < points.length then
      let next_i := (i + 1) % points.length
      if next_i = 0 ∧ is_closed = false then s
      else
        let bulge :=
          if i = 0 then (points.get ⟨0, Nat.lt_of_le_of_lt (Nat.zero_le i) h⟩).2.2
          else (points.get ⟨i, h⟩).2.2
        let np := points.get ⟨next_i, Nat.mod_lt _ (Nat.lt_of_le_of_lt (Nat.zero_le i) h)⟩
        lwpolyLoop points is_closed fuel (i + 1)
          (processPair ((points.get ⟨i, h⟩).1, (points.get ⟨i, h⟩).2.1)
            (np.1, np.2.1) bulge s)
    else s

/-- Model of `DXFToGcode.process_lwpolyline` (lines 104-128): nothing on an empty
vertex list, otherwise an unconditional rapid to the first vertex followed by
the pair loop. -/
def process_lwpolyline (points : List (ℝ × ℝ × ℝ)) (is_closed : Bool) (s : St) : St :=
  match points with
  | [] => s
  | first :: _ =>
    lwpolyLoop points is_closed points.length 0 (rapid_move first.1 first.2.1 s)

/-- Fallible model of the `process_lwpolyline` pair body: the arc branch
evaluates `(p2 - p1).orthogonal(ccw=True).normalize()` (line 126), and
`Vec2.normalize` raises `ZeroDivisionError` exactly when the magnitude is
zero, i.e. when the pair's endpoints coincide; the exception aborts the
whole conversion.  `none` models the raise; on `some` the result is exactly
the total `processPair`. -/
def processPair? (p1 p2 : Vec2) (bulge : ℝ) (s : St) : Option St :=
  if |bulge| < 0.001 then some (linear_move p2.1 p2.2 s)
  else if magnitude (orthogonal_ccw (p2.1 - p1.1, p2.2 - p1.2)) = 0 then none
  else
    let center := bulgeCenter p1 p2 bulge
    some (arc_move p2.1 p2.2 center.1 center.2 (decide (bulge < 0)) s)

/-- Fallible model of the `process_lwpolyline` loop: identical to
`lwpolyLoop` except that a raising pair body aborts the run (`Option.bind`
models the propagating exception). -/
def lwpolyLoop? (points : List (ℝ × ℝ × ℝ)) (is_closed : Bool) :
    ℕ → ℕ → St → Option St
  | 0, _, s => some s
  | fuel + 1, i, s =>
    if h : i < points.length then
      let next_i := (i + 1) % points.length
      if next_i = 0 ∧ is_closed = false then some s
      else
        let bulge :=
          if i = 0 then (points.get ⟨0, Nat.lt_of_le_of_lt (Nat.zero_le i) h⟩).2.2
          else (points.get ⟨i, h⟩).2.2
        let np := points.get ⟨next_i, Nat.mod_lt _ (Nat.lt_of_le_of_lt (Nat.zero_le i) h)⟩
        (processPair? ((points.get ⟨i, h⟩).1, (points.get ⟨i, h⟩).2.1)
            (np.1, np.2.1) bulge s).bind
          (lwpolyLoop? points is_closed fuel (i + 1))
    else some s

/-- Fallible model of `DXFToGcode.process_lwpolyline` (lines 104-128), with
the `ZeroDivisionError` of the pair bodies made explicit. -/
def process_lwpolyline? (points : List (ℝ × ℝ × ℝ)) (is_closed : Bool) (s : St) :
    Option St :=
  match points with
  | [] => some s
  | first :: _ =>
    lwpolyLoop? points is_closed points.length 0 (rapid_move first.1 first.2.1 s)

/-- A modelspace entity, as dispatched on `entity.dxftype()` in
`process_dxf` (lines 141-154).  `OTHER` stands for any unsupported type. -/
inductive Entity where
  | LINE (a b : Vec2)
  | CIRCLE (center : Vec2) (radius : ℝ)
  | ARC (center : Vec2) (radius start_angle end_angle : ℝ)
  | LWPOLYLINE (points : List (ℝ × ℝ × ℝ)) (is_closed : Bool)
  | OTHER

/-- Dispatch of one entity inside the `process_dxf` loop; unsupported
entities are skipped. -/
def processEntity (e : Entity) (s : St) : St :=
  match e with
  | Entity.LINE a b => process_line a b s
  | Entity.CIRCLE c r => process_circle c r s
  | Entity.ARC c r a1 a2 => process_arc c r a1 a2 s
  | Entity.LWPOLYLINE pts cl => process_lwpolyline pts cl s
  | Entity.OTHER => s

/-- Model of `DXFToGcode.process_dxf` (lines 130-158): on an unreadable file
(`ezdxf.readfile` raised, modelled as `none`) return `False` with the state
untouched; otherwise process every modelspace entity in order, switch the
laser off, and return `True`. -/
def process_dxf (doc : Option (List Entity)) (s : St) : Bool × St :=
  match doc with
  | none => (false, s)
  | some msp => (true, laser_off (msp.foldl (fun acc e => processEntity e acc) s))

/-! Observation functions on emitted command lists, used to state the
specification's temporal and counting properties. -/

/-- True for the cutting commands `G1`, `G2`, `G3`. -/
def isCut : Cmd → Bool
  | Cmd.G1 _ _ _ => true
  | Cmd.G2G3 _ _ _ _ _ _ => true
  | _ => false

/-- True for the rapid command `G0`. -/
def isRapid : Cmd → Bool
  | Cmd.G0 _ _ => true
  | _ => false

/-- True for the arc cutting commands `G2`, `G3`. -/
def isArcCmd : Cmd → Bool
  | Cmd.G2G3 _ _ _ _ _ _ => true
  | _ => false

/-- True for the energize-on command `M4`. -/
def isM4 : Cmd → Bool
  | Cmd.M4 _ => true
  | _ => false

/-- Effect of one command on the energization state. -/
def laserStep (c : Cmd) (b : Bool) : Bool :=
  match c with
  | Cmd.M4 _ => true
  | Cmd.M5 => false
  | _ => b

/-- Energization state after replaying a command list from state `b`. -/
def replay : List Cmd → Bool → Bool
  | [], b => b
  | c :: cs, b => replay cs (laserStep c b)

/-- Replaying from state `b`, every `G0` is executed with the laser off. -/
def rapidsOk : List Cmd → Bool → Bool
  | [], _ => true
  | c :: cs, b => (!(isRapid c) || !b) && rapidsOk cs (laserStep c b)

/-- Which energize toggles have been seen since the last cut or rapid:
`(seen M4, seen M5)`. -/
def seenStep (c : Cmd) (p : Bool × Bool) : Bool × Bool :=
  match c with
  | Cmd.M4 _ => (true, p.2)
  | Cmd.M5 => (p.1, true)
  | _ => (false, false)

/-- A toggle is admissible only if the same toggle has not occurred since the
last cut or rapid. -/
def seenOkStep (c : Cmd) (p : Bool × Bool) : Bool :=
  match c with
  | Cmd.M4 _ => !p.1
  | Cmd.M5 => !p.2
  | _ => true

/-- Seen-toggle state after a command list. -/
def seenSt : List Cmd → Bool × Bool → Bool × Bool
  | [], p => p
  | c :: cs, p => seenSt cs (seenStep c p)

/-- No two `M4` and no two `M5` occur without an intervening cut or rapid. -/
def seenOk : List Cmd → Bool × Bool → Bool
  | [], _ => true
  | c :: cs, p => seenOkStep c p && seenOk cs (seenStep c p)

/-- Whether the last command of the list is `M4` (`pend` for the empty
list). -/
def m4St : List Cmd → Bool → Bool
  | [], pend => pend
  | c :: _cs, _ => m4St _cs (isM4 c)

/-- Every command directly following an `M4` is a cut (`pend` records whether
the command before the list was `M4`). -/
def m4Ok : List Cmd → Bool → Bool
  | [], _ => true
  | c :: cs, pend => (!pend || isCut c) && m4Ok cs (isM4 c)

/-- Number of cutting commands in a list. -/
def cutCount (cs : List Cmd) : ℕ := (cs.filter isCut).length

/-- Number of rapid commands in a list. -/
def rapidCount (cs : List Cmd) : ℕ := (cs.filter isRapid).length

/-- Number of arc cutting commands in a list. -/
def arcCount (cs : List Cmd) : ℕ := (cs.filter isArcCmd).length

/-- Invariant maintained between any two emitter calls of one conversion
run: the `laser_on` field agrees with the replayed command list, every rapid
so far ran with the laser off, toggles never repeated between cuts/rapids and
the list does not currently end mid-toggle. -/
def Inv (s : St) : Prop :=
  replay s.gcode false = s.laser_on ∧
  rapidsOk s.gcode false = true ∧
  seenOk s.gcode (false, false) = true ∧
  seenSt s.gcode (false, false) = (false, false) ∧
  m4Ok s.gcode false = true ∧
  m4St s.gcode false = false

/-! Composition laws for the scan functions. -/

theorem replay_append (xs ys : List Cmd) (b : Bool) :
    replay (xs ++ ys) b = replay ys (replay xs b) := by
  induction xs generalizing b with
  | nil => rfl
  | cons c cs ih => simp [replay, ih]

theorem rapidsOk_append (xs ys : List Cmd) (b : Bool) :
    rapidsOk (xs ++ ys) b = (rapidsOk xs b && rapidsOk ys (replay xs b)) := by
  induction xs generalizing b with
  | nil => rfl
  | cons c cs ih => simp [rapidsOk, replay, ih, Bool.and_assoc]

theorem seenSt_append (xs ys : List Cmd) (p : Bool × Bool) :
    seenSt (xs ++ ys) p = seenSt ys (seenSt xs p) := by
  induction xs generalizing p with
  | nil => rfl
  | cons c cs ih => simp [seenSt, ih]

theorem seenOk_append (xs ys : List Cmd) (p : Bool × Bool) :
    seenOk (xs ++ ys) p = (seenOk xs p && seenOk ys (seenSt xs p)) := by
  induction xs generalizing p with
  | nil => rfl
  | cons c cs ih => simp [seenOk, seenSt, ih, Bool.and_assoc]

theorem m4St_append (xs ys : List Cmd) (pend : Bool) :
    m4St (xs ++ ys) pend = m4St ys (m4St xs pend) := by
  induction xs generalizing pend with
  | nil => rfl
  | cons c cs ih => simp [m4St, ih]

theorem m4Ok_append (xs ys : List Cmd) (pend : Bool) :
    m4Ok (xs ++ ys) pend = (m4Ok xs pend && m4Ok ys (m4St xs pend)) := by
  induction xs generalizing pend with
  | nil => rfl
  | cons c cs ih => simp [m4Ok, m4St, ih, Bool.and_assoc]

theorem cutCount_append (xs ys : List Cmd) :
    cutCount (xs ++ ys) = cutCount xs + cutCount ys := by
  simp [cutCount, List.filter_append]

theorem rapidCount_append (xs ys : List Cmd) :
    rapidCount (xs ++ ys) = rapidCount xs + rapidCount ys := by
  simp [rapidCount, List.filter_append]

theorem arcCount_append (xs ys : List Cmd) :
    arcCount (xs ++ ys) = arcCount xs + arcCount ys := by
  simp [arcCount, List.filter_append]

/-! Characterization of each emitter method: what it appends to `gcode` and
how it changes the other fields. -/

theorem laser_off_gcode (s : St) :
    (laser_off s).gcode = s.gcode ++ (if s.laser_on then [Cmd.M5] else []) := by
  unfold laser_off; by_cases h : s.laser_on <;> simp [h]

theorem laser_off_laser (s : St) : (laser_off s).laser_on = false := by
  unfold laser_off; by_cases h : s.laser_on <;> simp [h]

theorem laser_off_pos (s : St) : (laser_off s).current_pos = s.current_pos := by
  unfold laser_off; by_cases h : s.laser_on <;> simp [h]

theorem laser_off_power (s : St) : (laser_off s).power = s.power := by
  unfold laser_off; by_cases h : s.laser_on <;> simp [h]

theorem laser_off_feed (s : St) : (laser_off s).feed_rate = s.feed_rate := by
  unfold laser_off; by_cases h : s.laser_on <;> simp [h]

theorem laser_on_cmd_gcode (s : St) :
    (laser_on_cmd s).gcode = s.gcode ++ (if s.laser_on then [] else [Cmd.M4 s.power]) := by
  unfold laser_on_cmd; by_cases h : s.laser_on <;> simp [h]

theorem laser_on_cmd_laser (s : St) : (laser_on_cmd s).laser_on = true := by
  unfold laser_on_cmd; by_cases h : s.laser_on <;> simp [h]

theorem laser_on_cmd_pos (s : St) : (laser_on_cmd s).current_pos = s.current_pos := by
  unfold laser_on_cmd; by_cases h : s.laser_on <;> simp [h]

theorem laser_on_cmd_power (s : St) : (laser_on_cmd s).power = s.power := by
  unfold laser_on_cmd; by_cases h : s.laser_on <;> simp [h]

theorem laser_on_cmd_feed (s : St) : (laser_on_cmd s).feed_rate = s.feed_rate := by
  unfold laser_on_cmd; by_cases h : s.laser_on <;> simp [h]

theorem rapid_move_gcode (x y : ℝ) (s : St) :
    (rapid_move x y s).gcode
      = s.gcode ++ ((if s.laser_on then [Cmd.M5] else []) ++ [Cmd.G0 x y]) := by
  unfold rapid_move
  simp [laser_off_gcode]

theorem rapid_move_laser (x y : ℝ) (s : St) : (rapid_move x y s).laser_on = false := by
  unfold rapid_move; simp [laser_off_laser]

theorem rapid_move_pos (x y : ℝ) (s : St) : (rapid_move x y s).current_pos = (x, y) := rfl

theorem rapid_move_power (x y : ℝ) (s : St) : (rapid_move x y s).power = s.power := by
  unfold rapid_move; simp [laser_off_power]

theorem rapid_move_feed (x y : ℝ) (s : St) : (rapid_move x y s).feed_rate = s.feed_rate := by
  unfold rapid_move; simp [laser_off_feed]

theorem linear_move_gcode (x y : ℝ) (s : St) :
    (linear_move x y s).gcode
      = s.gcode ++ ((if s.laser_on then [] else [Cmd.M4 s.power]) ++ [Cmd.G1 x y s.feed_rate]) := by
  unfold linear_move
  simp [laser_on_cmd_gcode, laser_on_cmd_feed]

theorem linear_move_laser (x y : ℝ) (s : St) : (linear_move x y s).laser_on = true := by
  unfold linear_move; simp [laser_on_cmd_laser]

theorem linear_move_pos (x y : ℝ) (s : St) : (linear_move x y s).current_pos = (x, y) := rfl

theorem linear_move_power (x y : ℝ) (s : St) : (linear_move x y s).power = s.power := by
  unfold linear_move; simp [laser_on_cmd_power]

theorem linear_move_feed (x y : ℝ) (s : St) : (linear_move x y s).feed_rate = s.feed_rate := by
  unfold linear_move; simp [laser_on_cmd_feed]

theorem arc_move_gcode (x y cx cy : ℝ) (cw : Bool) (s : St) :
    (arc_move x y cx cy cw s).gcode
      = s.gcode ++ ((if s.laser_on then [] else [Cmd.M4 s.power]) ++
          [Cmd.G2G3 cw x y (cx - s.current_pos.1) (cy - s.current_pos.2) s.feed_rate]) := by
  unfold arc_move
  simp [laser_on_cmd_gcode, laser_on_cmd_feed, laser_on_cmd_pos]

theorem arc_move_laser (x y cx cy : ℝ) (cw : Bool) (s : St) :
    (arc_move x y cx cy cw s).laser_on = true := by
  unfold arc_move; simp [laser_on_cmd_laser]

theorem arc_move_pos (x y cx cy : ℝ) (cw : Bool) (s : St) :
    (arc_move x y cx cy cw s).current_pos = (x, y) := rfl

theorem arc_move_power (x y cx cy : ℝ) (cw : Bool) (s : St) :
    (arc_move x y cx cy cw s).power = s.power := by
  unfold arc_move; simp [laser_on_cmd_power]

theorem arc_move_feed (x y cx cy : ℝ) (cw : Bool) (s : St) :
    (arc_move x y cx cy cw s).feed_rate = s.feed_rate := by
  unfold arc_move; simp [laser_on_cmd_feed]

/-! Command counts per emitter method. -/

theorem cutCount_rapid_move (x y : ℝ) (s : St) :
    cutCount (rapid_move x y s).gcode = cutCount s.gcode := by
  rw [rapid_move_gcode, cutCount_append]
  by_cases h : s.laser_on <;> simp [h, cutCount, isCut]

theorem cutCount_linear_move (x y : ℝ) (s : St) :
    cutCount (linear_move x y s).gcode = cutCount s.gcode + 1 := by
  rw [linear_move_gcode, cutCount_append]
  by_cases h : s.laser_on <;> simp [h, cutCount, isCut]

theorem cutCount_arc_move (x y cx cy : ℝ) (cw : Bool) (s : St) :
    cutCount (arc_move x y cx cy cw s).gcode = cutCount s.gcode + 1 := by
  rw [arc_move_gcode, cutCount_append]
  by_cases h : s.laser_on <;> simp [h, cutCount, isCut]

theorem rapidCount_rapid_move (x y : ℝ) (s : St) :
    rapidCount (rapid_move x y s).gcode = rapidCount s.gcode + 1 := by
  rw [rapid_move_gcode, rapidCount_append]
  by_cases h : s.laser_on <;> simp [h, rapidCount, isRapid]

theorem rapidCount_linear_move (x y : ℝ) (s : St) :
    rapidCount (linear_move x y s).gcode = rapidCount s.gcode := by
  rw [linear_move_gcode, rapidCount_append]
  by_cases h : s.laser_on <;> simp [h, rapidCount, isRapid]

theorem rapidCount_arc_move (x y cx cy : ℝ) (cw : Bool) (s : St) :
    rapidCount (arc_move x y cx cy cw s).gcode = rapidCount s.gcode := by
  rw [arc_move_gcode, rapidCount_append]
  by_cases h : s.laser_on <;> simp [h, rapidCount, isRapid]

theorem arcCount_rapid_move (x y : ℝ) (s : St) :
    arcCount (rapid_move x y s).gcode = arcCount s.gcode := by
  rw [rapid_move_gcode, arcCount_append]
  by_cases h : s.laser_on <;> simp [h, arcCount, isArcCmd]

theorem arcCount_linear_move (x y : ℝ) (s : St) :
    arcCount (linear_move x y s).gcode = arcCount s.gcode := by
  rw [linear_move_gcode, arcCount_append]
  by_cases h : s.laser_on <;> simp [h, arcCount, isArcCmd]

theorem arcCount_arc_move (x y cx cy : ℝ) (cw : Bool) (s : St) :
    arcCount (arc_move x y cx cy cw s).gcode = arcCount s.gcode + 1 := by
  rw [arc_move_gcode, arcCount_append]
  by_cases h : s.laser_on <;> simp [h, arcCount, isArcCmd]

theorem cutCount_processPair (p1 p2 : Vec2) (b : ℝ) (s : St) :
    cutCount (processPair p1 p2 b s).gcode = cutCount s.gcode + 1 := by
  unfold processPair
  by_cases h : |b| < 0.001
  · rw [if_pos h, cutCount_linear_move]
  · rw [if_neg h]; exact cutCount_arc_move _ _ _ _ _ _

theorem rapidCount_processPair (p1 p2 : Vec2) (b : ℝ) (s : St) :
    rapidCount (processPair p1 p2 b s).gcode = rapidCount s.gcode := by
  unfold processPair
  by_cases h : |b| < 0.001
  · rw [if_pos h, rapidCount_linear_move]
  · rw [if_neg h]; exact rapidCount_arc_move _ _ _ _ _ _

/-! Preservation of the run invariant by every emitter. -/

theorem Inv_init (power feed rapid : ℤ) : Inv (init power feed rapid) := by
  refine ⟨rfl, rfl, rfl, rfl, rfl, rfl⟩

theorem Inv_rapid_move (x y : ℝ) (s : St) (h : Inv s) : Inv (rapid_move x y s) := by
  obtain ⟨h1, h2, h3, h4, h5, h6⟩ := h
  refine ⟨?_, ?_, ?_, ?_, ?_, ?_⟩
  · rw [rapid_move_gcode, replay_append, h1, rapid_move_laser]
    cases hb : s.laser_on <;> simp [replay, laserStep]
  · rw [rapid_move_gcode, rapidsOk_append, h2, h1]
    cases hb : s.laser_on <;> simp [rapidsOk, replay, laserStep, isRapid]
  · rw [rapid_move_gcode, seenOk_append, h3, h4]
    cases hb : s.laser_on <;> simp [seenOk, seenSt, seenStep, seenOkStep]
  · rw [rapid_move_gcode, seenSt_append, h4]
    cases hb : s.laser_on <;> simp [seenSt, seenStep]
  · rw [rapid_move_gcode, m4Ok_append, h5, h6]
    cases hb : s.laser_on <;> simp [m4Ok, m4St, isM4, isCut]
  · rw [rapid_move_gcode, m4St_append, h6]
    cases hb : s.laser_on <;> simp [m4St, isM4]

theorem Inv_linear_move (x y : ℝ) (s : St) (h : Inv s) : Inv (linear_move x y s) := by
  obtain ⟨h1, h2, h3, h4, h5, h6⟩ := h
  refine ⟨?_, ?_, ?_, ?_, ?_, ?_⟩
  · rw [linear_move_gcode, replay_append, h1, linear_move_laser]
    cases hb : s.laser_on <;> simp [replay, laserStep]
  · rw [linear_move_gcode, rapidsOk_append, h2, h1]
    cases hb : s.laser_on <;> simp [rapidsOk, replay, laserStep, isRapid]
  · rw [linear_move_gcode, seenOk_append, h3, h4]
    cases hb : s.laser_on <;> simp [seenOk, seenSt, seenStep, seenOkStep]
  · rw [linear_move_gcode, seenSt_append, h4]
    cases hb : s.laser_on <;> simp [seenSt, seenStep]
  · rw [linear_move_gcode, m4Ok_append, h5, h6]
    cases hb : s.laser_on <;> simp [m4Ok, m4St, isM4, isCut]
  · rw [linear_move_gcode, m4St_append, h6]
    cases hb : s.laser_on <;> simp [m4St, isM4]

theorem Inv_arc_move (x y cx cy : ℝ) (cw : Bool) (s : St) (h : Inv s) :
    Inv (arc_move x y cx cy cw s) := by
  obtain ⟨h1, h2, h3, h4, h5, h6⟩ := h
  refine ⟨?_, ?_, ?_, ?_, ?_, ?_⟩
  · rw [arc_move_gcode, replay_append, h1, arc_move_laser]
    cases hb : s.laser_on <;> simp [replay, laserStep]
  · rw [arc_move_gcode, rapidsOk_append, h2, h1]
    cases hb : s.laser_on <;> simp [rapidsOk, replay, laserStep, isRapid]
  · rw [arc_move_gcode, seenOk_append, h3, h4]
    cases hb : s.laser_on <;> simp [seenOk, seenSt, seenStep, seenOkStep]
  · rw [arc_move_gcode, seenSt_append, h4]
    cases hb : s.laser_on <;> simp [seenSt, seenStep]
  · rw [arc_move_gcode, m4Ok_append, h5, h6]
    cases hb : s.laser_on <;> simp [m4Ok, m4St, isM4, isCut]
  · rw [arc_move_gcode, m4St_append, h6]
    cases hb : s.laser_on <;> simp [m4St, isM4]

theorem Inv_processPair (p1 p2 : Vec2) (b : ℝ) (s : St) (h : Inv s) :
    Inv (processPair p1 p2 b s) := by
  unfold processPair
  by_cases hb : |b| < 0.001
  · rw [if_pos hb]; exact Inv_linear_move _ _ _ h
  · rw [if_neg hb]; exact Inv_arc_move _ _ _ _ _ _ h

theorem Inv_process_line (a b : Vec2) (s : St) (h : Inv s) : Inv (process_line a b s) := by
  unfold process_line
  by_cases hd : distance s.current_pos a > 0.001
  · rw [if_pos hd]; exact Inv_linear_move _ _ _ (Inv_rapid_move _ _ _ h)
  · rw [if_neg hd]; exact Inv_linear_move _ _ _ h

theorem Inv_process_circle (c : Vec2) (r : ℝ) (s : St) (h : Inv s) :
    Inv (process_circle c r s) := by
  unfold process_circle
  exact Inv_arc_move _ _ _ _ _ _ (Inv_arc_move _ _ _ _ _ _ (Inv_rapid_move _ _ _ h))

theorem Inv_process_arc (c : Vec2) (r a1 a2 : ℝ) (s : St) (h : Inv s) :
    Inv (process_arc c r a1 a2 s) := by
  simp only [process_arc]
  by_cases hd : distance s.current_pos
      (c.1 + r * Real.cos (a1 * Real.pi / 180), c.2 + r * Real.sin (a1 * Real.pi / 180)) > 0.001
  · rw [if_pos hd]; exact Inv_arc_move _ _ _ _ _ _ (Inv_rapid_move _ _ _ h)
  · rw [if_neg hd]; exact Inv_arc_move _ _ _ _ _ _ h

/-! Unfolding lemmas for the polyline loop. -/

theorem lwpolyLoop_zero (points : List (ℝ × ℝ × ℝ)) (cl : Bool) (i : ℕ) (s : St) :
    lwpolyLoop points cl 0 i s = s := rfl

theorem lwpolyLoop_stop (points : List (ℝ × ℝ × ℝ)) (cl : Bool) (fuel i : ℕ) (s : St)
    (h : ¬ i < points.length) : lwpolyLoop points cl fuel i s = s := by
  cases fuel with
  | zero => rfl
  | succ f => simp only [lwpolyLoop]; rw [dif_neg h]

theorem lwpolyLoop_break (points : List (ℝ × ℝ × ℝ)) (cl : Bool) (fuel i : ℕ) (s : St)
    (h : i < points.length) (hb : (i + 1) % points.length = 0) (hc : cl = false) :
    lwpolyLoop points cl (fuel + 1) i s = s := by
  simp only [lwpolyLoop]
  rw [dif_pos h]
  simp only [hb, hc, and_self, if_true]

theorem lwpolyLoop_step (points : List (ℝ × ℝ × ℝ)) (cl : Bool) (fuel i : ℕ) (s : St)
    (h : i < points.length) (hnb : ¬((i + 1) % points.length = 0 ∧ cl = false)) :
    lwpolyLoop points cl (fuel + 1) i s =
      lwpolyLoop points cl fuel (i + 1)
        (processPair ((points.get ⟨i, h⟩).1, (points.get ⟨i, h⟩).2.1)
          ((points.get ⟨(i + 1) % points.length,
              Nat.mod_lt _ (Nat.lt_of_le_of_lt (Nat.zero_le i) h)⟩).1,
           (points.get ⟨(i + 1) % points.length,
              Nat.mod_lt _ (Nat.lt_of_le_of_lt (Nat.zero_le i) h)⟩).2.1)
          ((points.get ⟨i, h⟩).2.2) s) := by
  simp only [lwpolyLoop]
  rw [dif_pos h, if_neg hnb]
  by_cases h0 : i = 0
  · subst h0; rfl
  · simp only [h0, if_false]

/-! Invariant preservation through the polyline loop and the whole run. -/

theorem Inv_lwpolyLoop (points : List (ℝ × ℝ × ℝ)) (cl : Bool) :
    ∀ fuel i s, Inv s → Inv (lwpolyLoop points cl fuel i s) := by
  intro fuel
  induction fuel with
  | zero => intro i s h; rw [lwpolyLoop_zero]; exact h
  | succ f ih =>
    intro i s h
    by_cases hi : i < points.length
    · by_cases hb : (i + 1) % points.length = 0 ∧ cl = false
      · rw [lwpolyLoop_break points cl f i s hi hb.1 hb.2]; exact h
      · rw [lwpolyLoop_step points cl f i s hi hb]
        exact ih _ _ (Inv_processPair _ _ _ _ h)
    · rw [lwpolyLoop_stop points cl _ i s hi]; exact h

theorem Inv_process_lwpolyline (points : List (ℝ × ℝ × ℝ)) (cl : Bool) (s : St)
    (h : Inv s) : Inv (process_lwpolyline points cl s) := by
  cases points with
  | nil => exact h
  | cons p rest =>
    exact Inv_lwpolyLoop _ _ _ _ _ (Inv_rapid_move _ _ _ h)

theorem Inv_processEntity (e : Entity) (s : St) (h : Inv s) : Inv (processEntity e s) := by
  cases e with
  | LINE a b => exact Inv_process_line a b s h
  | CIRCLE c r => exact Inv_process_circle c r s h
  | ARC c r a1 a2 => exact Inv_process_arc c r a1 a2 s h
  | LWPOLYLINE pts cl => exact Inv_process_lwpolyline pts cl s h
  | OTHER => exact h

theorem Inv_foldl (ents : List Entity) (s : St) (h : Inv s) :
    Inv (ents.foldl (fun acc e => processEntity e acc) s) := by
  induction ents generalizing s with
  | nil => exact h
  | cons e rest ih => exact ih _ (Inv_processEntity e s h)

/-- Properties of the final command list after the closing `laser_off` of
`process_dxf`. -/
theorem final_props (s : St) (h : Inv s) :
    replay (laser_off s).gcode false = false ∧
    rapidsOk (laser_off s).gcode false = true ∧
    seenOk (laser_off s).gcode (false, false) = true ∧
    m4Ok (laser_off s).gcode false = true ∧
    m4St (laser_off s).gcode false = false := by
  obtain ⟨h1, h2, h3, h4, h5, h6⟩ := h
  refine ⟨?_, ?_, ?_, ?_, ?_⟩
  · rw [laser_off_gcode, replay_append, h1]
    cases hb : s.laser_on <;> simp [replay, laserStep]
  · rw [laser_off_gcode, rapidsOk_append, h2, h1]
    cases hb : s.laser_on <;> simp [rapidsOk, isRapid]
  · rw [laser_off_gcode, seenOk_append, h3, h4]
    cases hb : s.laser_on <;> simp [seenOk, seenStep, seenOkStep]
  · rw [laser_off_gcode, m4Ok_append, h5, h6]
    cases hb : s.laser_on <;> simp [m4Ok, isM4, isCut]
  · rw [laser_off_gcode, m4St_append, h6]
    cases hb : s.laser_on <;> simp [m4St, isM4]

/-! Command counts through the polyline loop. -/

theorem rapidCount_lwpolyLoop (points : List (ℝ × ℝ × ℝ)) (cl : Bool) :
    ∀ fuel i s, rapidCount (lwpolyLoop points cl fuel i s).gcode = rapidCount s.gcode := by
  intro fuel
  induction fuel with
  | zero => intro i s; rw [lwpolyLoop_zero]
  | succ f ih =>
    intro i s
    by_cases hi : i < points.length
    · by_cases hb : (i + 1) % points.length = 0 ∧ cl = false
      · rw [lwpolyLoop_break points cl f i s hi hb.1 hb.2]
      · rw [lwpolyLoop_step points cl f i s hi hb, ih, rapidCount_processPair]
    · rw [lwpolyLoop_stop points cl _ i s hi]

theorem cutCount_lwpolyLoop (points : List (ℝ × ℝ × ℝ)) (cl : Bool) :
    ∀ fuel i s, points.length - i ≤ fuel →
      cutCount (lwpolyLoop points cl fuel i s).gcode
        = cutCount s.gcode +
            (if cl then points.length - i else points.length - 1 - i) := by
  intro fuel
  induction fuel with
  | zero =>
    intro i s hle
    rw [lwpolyLoop_zero]
    cases cl <;> simp <;> omega
  | succ f ih =>
    intro i s hle
    by_cases hi : i < points.length
    · by_cases hb : (i + 1) % points.length = 0 ∧ cl = false
      · rw [lwpolyLoop_break points cl f i s hi hb.1 hb.2]
        have hEq : i + 1 = points.length := by
          rcases lt_or_ge (i + 1) points.length with hlt | hge
          · rw [Nat.mod_eq_of_lt hlt] at hb; omega
          · omega
        rw [hb.2]
        simp
        omega
      · rw [lwpolyLoop_step points cl f i s hi hb, ih _ _ (by omega), cutCount_processPair]
        cases hc : cl with
        | true => simp; omega
        | false =>
          have hne : i + 1 ≠ points.length := by
            intro hEq
            exact hb ⟨by rw [hEq, Nat.mod_self], hc⟩
          simp
          omega
    · rw [lwpolyLoop_stop points cl _ i s hi]
      cases cl <;> simp <;> omega

/-! The claims about whole conversion runs. -/

/-- C1: in every command sequence produced by one conversion run from a fresh
converter state, replaying the energization state shows the laser off at
every `Rapid` (`G0`) command (so an `M5` was emitted before the rapid
whenever the laser was on), and off again after the final command. -/
theorem laser_off_during_rapids_and_at_end (power feed rapid : ℤ) (ents : List Entity) :
    rapidsOk ((process_dxf (some ents) (init power feed rapid)).2).gcode false = true ∧
    replay ((process_dxf (some ents) (init power feed rapid)).2).gcode false = false := by
  have hInv := Inv_foldl ents _ (Inv_init power feed rapid)
  have hf := final_props _ hInv
  simp only [process_dxf]
  exact ⟨hf.2.1, hf.1⟩

/-- C8: in every command sequence produced by a conversion run there are
never two `M4` (EnergizeOn) and never two `M5` (EnergizeOff) commands without
an intervening cut or rapid command between them. -/
theorem no_redundant_energize_toggles (power feed rapid : ℤ) (ents : List Entity) :
    seenOk ((process_dxf (some ents) (init power feed rapid)).2).gcode (false, false) = true := by
  have hInv := Inv_foldl ents _ (Inv_init power feed rapid)
  have hf := final_props _ hInv
  simp only [process_dxf]
  exact hf.2.2.1

/-- C10: in every command sequence produced by a conversion run, each `M4`
(EnergizeOn) is immediately followed by a cutting command (`G1`, `G2` or
`G3`) — in particular `M4` is never the last command and is never directly
followed by a `G0` or an `M5`. -/
theorem energize_on_followed_by_cut (power feed rapid : ℤ) (ents : List Entity) :
    m4Ok ((process_dxf (some ents) (init power feed rapid)).2).gcode false = true ∧
    m4St ((process_dxf (some ents) (init power feed rapid)).2).gcode false = false := by
  have hInv := Inv_foldl ents _ (Inv_init power feed rapid)
  have hf := final_props _ hInv
  simp only [process_dxf]
  exact ⟨hf.2.2.2.1, hf.2.2.2.2⟩

/-- C9: when the source entity collection is unreadable (`ezdxf.readfile`
raised, modelled as `none`), `process_dxf` reports failure and leaves the
state — in particular the accumulated command sequence — completely
unchanged. -/
theorem malformed_input_no_commands (s : St) : process_dxf none s = (false, s) := rfl

/-- Cut count of the total polyline model: N cuts when closed, N - 1 when
open (natural subtraction: an empty or single-vertex open polyline emits
none).  On inputs where the source raises mid-loop this total model keeps
counting; the claim about segment counts is stated on the fallible model
below. -/
theorem cutCount_process_lwpolyline (points : List (ℝ × ℝ × ℝ)) (cl : Bool) (s : St) :
    cutCount (process_lwpolyline points cl s).gcode
      = cutCount s.gcode + (if cl then points.length else points.length - 1) := by
  cases points with
  | nil => cases cl <;> simp [process_lwpolyline]
  | cons p rest =>
    simp only [process_lwpolyline]
    rw [cutCount_lwpolyLoop _ _ _ 0 _ (by omega), cutCount_rapid_move]
    simp

/-! Rapid emission per entity kind, and the full shape of a circle's
output. -/

theorem rapidCount_process_line (a b : Vec2) (s : St) :
    rapidCount (process_line a b s).gcode
      = rapidCount s.gcode + (if distance s.current_pos a > 0.001 then 1 else 0) := by
  simp only [process_line]
  by_cases hd : distance s.current_pos a > 0.001
  · rw [if_pos hd, if_pos hd, rapidCount_linear_move, rapidCount_rapid_move]
  · rw [if_neg hd, if_neg hd, rapidCount_linear_move, Nat.add_zero]

theorem rapidCount_process_arc (c : Vec2) (r a1 a2 : ℝ) (s : St) :
    rapidCount (process_arc c r a1 a2 s).gcode
      = rapidCount s.gcode +
          (if distance s.current_pos
              (c.1 + r * Real.cos (a1 * Real.pi / 180),
               c.2 + r * Real.sin (a1 * Real.pi / 180)) > 0.001
           then 1 else 0) := by
  simp only [process_arc]
  by_cases hd : distance s.current_pos
      (c.1 + r * Real.cos (a1 * Real.pi / 180), c.2 + r * Real.sin (a1 * Real.pi / 180)) > 0.001
  · rw [if_pos hd, if_pos hd, rapidCount_arc_move, rapidCount_rapid_move]
  · rw [if_neg hd, if_neg hd, rapidCount_arc_move, Nat.add_zero]

theorem rapidCount_process_circle (c : Vec2) (r : ℝ) (s : St) :
    rapidCount (process_circle c r s).gcode = rapidCount s.gcode + 1 := by
  simp only [process_circle]
  rw [rapidCount_arc_move, rapidCount_arc_move, rapidCount_rapid_move]

theorem rapidCount_process_lwpolyline (v : ℝ × ℝ × ℝ) (rest : List (ℝ × ℝ × ℝ))
    (cl : Bool) (s : St) :
    rapidCount (process_lwpolyline (v :: rest) cl s).gcode = rapidCount s.gcode + 1 := by
  simp only [process_lwpolyline]
  rw [rapidCount_lwpolyLoop, rapidCount_rapid_move]

theorem process_circle_gcode (c : Vec2) (r : ℝ) (s : St) :
    (process_circle c r s).gcode
      = s.gcode ++ ((if s.laser_on then [Cmd.M5] else []) ++
          [Cmd.G0 (c.1 + r) c.2, Cmd.M4 s.power,
           Cmd.G2G3 true (c.1 - r) c.2 (-r) 0 s.feed_rate,
           Cmd.G2G3 true (c.1 + r) c.2 r 0 s.feed_rate]) := by
  simp only [process_circle, arc_move_gcode, arc_move_pos, arc_move_laser, arc_move_power,
    arc_move_feed, rapid_move_gcode, rapid_move_pos, rapid_move_laser, rapid_move_power,
    rapid_move_feed]
  have e1 : c.1 - (c.1 + r) = -r := by ring
  have e2 : c.2 - c.2 = 0 := by ring
  have e3 : c.1 - (c.1 - r) = r := by ring
  rw [e1, e2, e3]
  simp

theorem process_circle_laser (c : Vec2) (r : ℝ) (s : St) :
    (process_circle c r s).laser_on = true := by
  simp only [process_circle, arc_move_laser]

/-- C6 (confirmed): every circle yields exactly two clockwise arc commands
splitting the circle at `(center.x + radius, center.y)`, the first ending at
`(center.x - radius, center.y)` with center offset `(-radius, 0)` and the
second returning to the split point with offset `(radius, 0)`; and the
spec's concrete example run `Circle{center=(5,5), radius=3}` from a fresh
converter produces exactly
`[Rapid(8,5), EnergizeOn, Cut-ArcCW(2,5,(-3,0)), Cut-ArcCW(8,5,(3,0)), EnergizeOff]`. -/
theorem circle_two_cw_arcs :
    (∀ (c : Vec2) (r : ℝ) (s : St),
      (process_circle c r s).gcode
        = s.gcode ++ ((if s.laser_on then [Cmd.M5] else []) ++
            [Cmd.G0 (c.1 + r) c.2, Cmd.M4 s.power,
             Cmd.G2G3 true (c.1 - r) c.2 (-r) 0 s.feed_rate,
             Cmd.G2G3 true (c.1 + r) c.2 r 0 s.feed_rate])) ∧
    ((process_dxf (some [Entity.CIRCLE (5, 5) 3]) (init 1000 6000 6000)).2).gcode
      = [Cmd.G0 8 5, Cmd.M4 1000,
         Cmd.G2G3 true 2 5 (-3) 0 6000, Cmd.G2G3 true 8 5 3 0 6000, Cmd.M5] := by
  refine ⟨process_circle_gcode, ?_⟩
  simp only [process_dxf, List.foldl, processEntity]
  rw [laser_off_gcode, process_circle_gcode, process_circle_laser]
  norm_num [init]

/-- C3 (counterexample): a circle whose start point `(-3 + 3, 0) = (0, 0)`
coincides with the current tool position (distance 0 ≤ 1e-3) still emits a
Rapid: `process_circle` rapids unconditionally, refuting the claimed
"Rapid iff the start differs by more than 1e-3". -/
theorem rapid_without_motion_cex :
    distance (init 1000 6000 6000).current_pos ((-3 : ℝ) + 3, (0 : ℝ)) ≤ 0.001 ∧
    rapidCount (process_circle (-3, 0) 3 (init 1000 6000 6000)).gcode = 1 := by
  constructor
  · have h : distance (init 1000 6000 6000).current_pos ((-3 : ℝ) + 3, (0 : ℝ)) = 0 := by
      simp [init, distance]
    rw [h]; norm_num
  · rw [rapidCount_process_circle]
    simp [init, rapidCount]

/-- C3 (amended): `Line` and `Arc` entities emit a Rapid to their start point
exactly when it differs from the current position by more than 1e-3, and a
`Line` starting at the current position yields just `EnergizeOn` plus a cut;
but `Circle` and non-empty `Polyline` entities always emit exactly one Rapid
to their first point, regardless of the current position. -/
theorem rapid_emission_rules :
    (∀ (s : St) (a b : Vec2),
        rapidCount (process_line a b s).gcode
          = rapidCount s.gcode + (if distance s.current_pos a > 0.001 then 1 else 0)) ∧
    (∀ (s : St) (c : Vec2) (r a1 a2 : ℝ),
        rapidCount (process_arc c r a1 a2 s).gcode
          = rapidCount s.gcode +
              (if distance s.current_pos
                  (c.1 + r * Real.cos (a1 * Real.pi / 180),
                   c.2 + r * Real.sin (a1 * Real.pi / 180)) > 0.001
               then 1 else 0)) ∧
    (∀ (s : St) (c : Vec2) (r : ℝ),
        rapidCount (process_circle c r s).gcode = rapidCount s.gcode + 1) ∧
    (∀ (s : St) (v : ℝ × ℝ × ℝ) (rest : List (ℝ × ℝ × ℝ)) (cl : Bool),
        rapidCount (process_lwpolyline (v :: rest) cl s).gcode = rapidCount s.gcode + 1) ∧
    (process_line (0, 0) (10, 0) (init 1000 6000 6000)).gcode
      = [Cmd.M4 1000, Cmd.G1 10 0 6000] := by
  refine ⟨fun s a b => rapidCount_process_line a b s,
          fun s c r a1 a2 => rapidCount_process_arc c r a1 a2 s,
          fun s c r => rapidCount_process_circle c r s,
          fun s v rest cl => rapidCount_process_lwpolyline v rest cl s, ?_⟩
  have hd : ¬ distance (init 1000 6000 6000).current_pos ((0 : ℝ), (0 : ℝ)) > 0.001 := by
    norm_num [init, distance]
  simp only [process_line]
  rw [if_neg hd, linear_move_gcode]
  norm_num [init]

/-- Processing a two-vertex open polyline reduces to one rapid to the first
vertex followed by the single pair body. -/
theorem process_lwpolyline_two_open (v w : ℝ × ℝ × ℝ) (s : St) :
    process_lwpolyline [v, w] false s
      = processPair (v.1, v.2.1) (w.1, w.2.1) v.2.2 (rapid_move v.1 v.2.1 s) := by
  simp [process_lwpolyline, lwpolyLoop]

/-- C4 (counterexample): the open polyline with the two coincident vertices
`(0,0)` (bulge 0) is a zero-length pair, yet the run emits a cut command
`G1` to the same point — the pair is not skipped. -/
theorem zero_length_pair_emitted_cex :
    (process_lwpolyline [((0 : ℝ), (0 : ℝ), (0 : ℝ)), ((0 : ℝ), (0 : ℝ), (0 : ℝ))] false
        (init 1000 6000 6000)).gcode
      = [Cmd.G0 0 0, Cmd.M4 1000, Cmd.G1 0 0 6000] := by
  rw [process_lwpolyline_two_open]
  simp only [processPair]
  rw [if_pos (by norm_num)]
  rw [linear_move_gcode, rapid_move_gcode, rapid_move_laser, rapid_move_power, rapid_move_feed]
  norm_num [init]

/-- C4 (amended): a consecutive vertex pair with coincident endpoints and
`|bulge| < 1e-3` is not skipped: it emits a degenerate `Line` cut to that
same point (preceded by `M4` when the laser is off). -/
theorem zero_length_pair_not_skipped (s : St) (p : Vec2) (b : ℝ) (hb : |b| < 0.001) :
    (processPair p p b s).gcode
      = s.gcode ++ ((if s.laser_on then [] else [Cmd.M4 s.power]) ++
          [Cmd.G1 p.1 p.2 s.feed_rate]) := by
  unfold processPair
  rw [if_pos hb, linear_move_gcode]

/-- Witness for `zero_length_pair_not_skipped` at `p = (1, 2)`, `b = 0` from
a fresh converter. -/
theorem zero_length_pair_not_skipped_witness :
    |(0 : ℝ)| < 0.001 ∧
    (processPair (1, 2) (1, 2) 0 (init 1000 6000 6000)).gcode
      = [Cmd.M4 1000, Cmd.G1 1 2 6000] :=
  ⟨by norm_num, by
    have h := zero_length_pair_not_skipped (init 1000 6000 6000) (1, 2) 0 (by norm_num)
    simpa [init] using h⟩

/-! Trigonometric facts about the bulge angle. -/

theorem bulgeAngle_half (b : ℝ) : bulgeAngle b / 2 = 2 * Real.arctan b := by
  unfold bulgeAngle; ring

theorem sin_two_arctan (x : ℝ) : Real.sin (2 * Real.arctan x) = 2 * x / (1 + x ^ 2) := by
  rw [Real.sin_two_mul, Real.sin_arctan, Real.cos_arctan]
  have h0 : (0 : ℝ) < 1 + x ^ 2 := by positivity
  have hs : Real.sqrt (1 + x ^ 2) ≠ 0 := ne_of_gt (Real.sqrt_pos.mpr h0)
  field_simp

/-- C2 (counterexample): the vertex pair `(0,0) → (1,0)` with
`bulge = 10^10` passes the `|bulge| ≥ 1e-3` gate and has
`|sin(angle/2)| = 2·10^10/(1+10^20) ≤ 1e-9`, yet the code performs the
division and emits the arc — no `DegenerateGeometry` error exists. -/
theorem bulge_guard_missing_cex :
    (0.001 : ℝ) ≤ |(10 ^ 10 : ℝ)| ∧
    |Real.sin (bulgeAngle (10 ^ 10) / 2)| ≤ 1 / 10 ^ 9 ∧
    arcCount (processPair (0, 0) (1, 0) (10 ^ 10) (init 1000 6000 6000)).gcode = 1 := by
  refine ⟨by norm_num, ?_, ?_⟩
  · rw [bulgeAngle_half, sin_two_arctan]
    rw [abs_of_nonneg (by positivity)]
    rw [div_le_div_iff₀ (by positivity) (by positivity)]
    norm_num
  · unfold processPair
    rw [if_neg (by norm_num)]
    rw [arcCount_arc_move]
    simp [init, arcCount]

/-! Geometry of the bulge arc reconstruction. -/

theorem distance_mk (a b : ℝ) (q : Vec2) :
    distance (a, b) q = Real.sqrt ((a - q.1) ^ 2 + (b - q.2) ^ 2) := rfl

theorem distance_sq (p q : Vec2) :
    distance p q ^ 2 = (p.1 - q.1) ^ 2 + (p.2 - q.2) ^ 2 := by
  unfold distance
  exact Real.sq_sqrt (by positivity)

theorem distance_pos (p q : Vec2) (h : p ≠ q) : 0 < distance p q := by
  unfold distance
  apply Real.sqrt_pos.mpr
  have h' : p.1 ≠ q.1 ∨ p.2 ≠ q.2 := by
    by_contra hc
    push_neg at hc
    exact h (Prod.ext_iff.mpr ⟨hc.1, hc.2⟩)
  rcases h' with h1 | h1
  · have h2 : (p.1 - q.1) ^ 2 ≠ 0 := pow_ne_zero 2 (sub_ne_zero.mpr h1)
    have h3 : 0 < (p.1 - q.1) ^ 2 := lt_of_le_of_ne (sq_nonneg _) (Ne.symm h2)
    nlinarith [sq_nonneg (p.2 - q.2)]
  · have h2 : (p.2 - q.2) ^ 2 ≠ 0 := pow_ne_zero 2 (sub_ne_zero.mpr h1)
    have h3 : 0 < (p.2 - q.2) ^ 2 := lt_of_le_of_ne (sq_nonneg _) (Ne.symm h2)
    nlinarith [sq_nonneg (p.1 - q.1)]

/-- Magnitude of the rotated chord equals the chord length, so the
`normalize` call divides by the distance between the pair's endpoints —
and raises in the source exactly when that distance is zero. -/
theorem magnitude_orthogonal (p1 p2 : Vec2) :
    magnitude (orthogonal_ccw (p2.1 - p1.1, p2.2 - p1.2)) = distance p1 p2 := by
  unfold magnitude orthogonal_ccw distance
  congr 1
  ring

/-- Pythagorean computation behind the bulge arc: if the chord has components
`(ux, uy)` and length `d`, `d = 2·R·s` and `s^2 + c^2 = 1`, then the point
at the chord midpoint displaced by `R·c` along the unit perpendicular is at
distance `|R|` from the chord end, in squared form. -/
theorem circle_center_identity (ux uy d R s c : ℝ) (hd : d ≠ 0)
    (hA : ux ^ 2 + uy ^ 2 = d ^ 2) (hds : d = 2 * R * s) (hpyth : s ^ 2 + c ^ 2 = 1) :
    (ux / 2 + -uy / d * (R * c)) ^ 2 + (uy / 2 + ux / d * (R * c)) ^ 2 = R ^ 2 := by
  have e1 : (ux / 2 + -uy / d * (R * c)) ^ 2 + (uy / 2 + ux / d * (R * c)) ^ 2
      = (ux ^ 2 + uy ^ 2) * (1 / 4 + (R * c / d) ^ 2) := by ring
  rw [e1, hA]
  have e2 : d ^ 2 * (1 / 4 + (R * c / d) ^ 2) = d ^ 2 / 4 + (R * c) ^ 2 := by
    field_simp
    ring
  rw [e2]
  have e3 : d ^ 2 / 4 = (R * s) ^ 2 := by rw [hds]; ring
  rw [e3]
  have e4 : (R * s) ^ 2 + (R * c) ^ 2 = R ^ 2 * (s ^ 2 + c ^ 2) := by ring
  rw [e4, hpyth, mul_one]

theorem bulge_sin_ne_zero (b : ℝ) (hb : b ≠ 0) :
    Real.sin (bulgeAngle b / 2) ≠ 0 := by
  rw [bulgeAngle_half, sin_two_arctan]
  have h0 : (0 : ℝ) < 1 + b ^ 2 := by positivity
  exact div_ne_zero (by simpa using hb) h0.ne'

theorem bulge_chord_eq (p1 p2 : Vec2) (b : ℝ) :
    distance p1 p2
      = 2 * bulgeRadius p1 p2 b * Real.sin (bulgeAngle b / 2) ∨ b = 0 := by
  by_cases hb : b = 0
  · right; exact hb
  · left
    have hs := bulge_sin_ne_zero b hb
    unfold bulgeRadius
    field_simp
    ring

/-- Explicit components of the bulge arc center. -/
theorem bulgeCenter_eq (p1 p2 : Vec2) (b : ℝ) :
    bulgeCenter p1 p2 b
      = ((p1.1 + p2.1) / 2 +
           -(p2.2 - p1.2) / distance p1 p2 *
             (bulgeRadius p1 p2 b * Real.cos (bulgeAngle b / 2)),
         (p1.2 + p2.2) / 2 +
           (p2.1 - p1.1) / distance p1 p2 *
             (bulgeRadius p1 p2 b * Real.cos (bulgeAngle b / 2))) := by
  have hmag := magnitude_orthogonal p1 p2
  unfold bulgeCenter normalize
  rw [hmag]
  simp [orthogonal_ccw]

/-- C5 (amended): for every vertex pair with `p1 ≠ p2` and every nonzero
bulge, the reconstructed center is at distance `|radius|` from both
endpoints — exact equality, hence well within the claimed 1e-6 relative
tolerance of the absolute value; the signed `radius` itself is negative for
negative bulges, so the claim holds only up to that sign. -/
theorem bulge_center_equidistant (p1 p2 : Vec2) (b : ℝ) (hp : p1 ≠ p2) (hb : b ≠ 0) :
    distance (bulgeCenter p1 p2 b) p1 = |bulgeRadius p1 p2 b| ∧
    distance (bulgeCenter p1 p2 b) p2 = |bulgeRadius p1 p2 b| := by
  have hd0 : 0 < distance p1 p2 := distance_pos p1 p2 hp
  have hA : (p2.1 - p1.1) ^ 2 + (p2.2 - p1.2) ^ 2 = distance p1 p2 ^ 2 := by
    rw [distance_sq]; ring
  have hds : distance p1 p2
      = 2 * bulgeRadius p1 p2 b * Real.sin (bulgeAngle b / 2) := by
    rcases bulge_chord_eq p1 p2 b with h | h
    · exact h
    · exact absurd h hb
  have hpyth := Real.sin_sq_add_cos_sq (bulgeAngle b / 2)
  have hpyth2 : Real.sin (bulgeAngle b / 2) ^ 2 + (-Real.cos (bulgeAngle b / 2)) ^ 2 = 1 := by
    rw [neg_sq]; exact hpyth
  have key1 := circle_center_identity (p2.1 - p1.1) (p2.2 - p1.2) (distance p1 p2)
      (bulgeRadius p1 p2 b) (Real.sin (bulgeAngle b / 2)) (Real.cos (bulgeAngle b / 2))
      hd0.ne' hA hds hpyth
  have key2 := circle_center_identity (p2.1 - p1.1) (p2.2 - p1.2) (distance p1 p2)
      (bulgeRadius p1 p2 b) (Real.sin (bulgeAngle b / 2)) (-Real.cos (bulgeAngle b / 2))
      hd0.ne' hA hds hpyth2
  constructor
  · rw [bulgeCenter_eq, distance_mk]
    have e : ((p1.1 + p2.1) / 2 +
          -(p2.2 - p1.2) / distance p1 p2 *
            (bulgeRadius p1 p2 b * Real.cos (bulgeAngle b / 2)) - p1.1) ^ 2 +
        ((p1.2 + p2.2) / 2 +
          (p2.1 - p1.1) / distance p1 p2 *
            (bulgeRadius p1 p2 b * Real.cos (bulgeAngle b / 2)) - p1.2) ^ 2
        = bulgeRadius p1 p2 b ^ 2 := by linear_combination key1
    rw [e, Real.sqrt_sq_eq_abs]
  · rw [bulgeCenter_eq, distance_mk]
    have e : ((p1.1 + p2.1) / 2 +
          -(p2.2 - p1.2) / distance p1 p2 *
            (bulgeRadius p1 p2 b * Real.cos (bulgeAngle b / 2)) - p2.1) ^ 2 +
        ((p1.2 + p2.2) / 2 +
          (p2.1 - p1.1) / distance p1 p2 *
            (bulgeRadius p1 p2 b * Real.cos (bulgeAngle b / 2)) - p2.2) ^ 2
        = bulgeRadius p1 p2 b ^ 2 := by linear_combination key2
    rw [e, Real.sqrt_sq_eq_abs]

/-- Witness for `bulge_center_equidistant` at `p1 = (0,0)`, `p2 = (2,0)`,
`b = 1`. -/
theorem bulge_center_equidistant_witness :
    (((0 : ℝ), (0 : ℝ)) : Vec2) ≠ ((2 : ℝ), (0 : ℝ)) ∧ (1 : ℝ) ≠ 0 ∧
    (distance (bulgeCenter (0, 0) (2, 0) 1) (0, 0) = |bulgeRadius (0, 0) (2, 0) 1| ∧
     distance (bulgeCenter (0, 0) (2, 0) 1) (2, 0) = |bulgeRadius (0, 0) (2, 0) 1|) :=
  ⟨by norm_num [Prod.ext_iff], by norm_num,
   bulge_center_equidistant (0, 0) (2, 0) 1 (by norm_num [Prod.ext_iff]) (by norm_num)⟩

/-- C5 (counterexample): for `p1 = (0,0)`, `p2 = (2,0)`, `bulge = -1` the
code computes `radius = -1` while the center `(1,0)` is at distance `1` from
`p1`, so `|center - p1|` is not within 1e-6 relative tolerance of the signed
`radius`. -/
theorem bulge_radius_negative_cex :
    bulgeRadius (0, 0) (2, 0) (-1) = -1 ∧
    distance (bulgeCenter (0, 0) (2, 0) (-1)) (0, 0) = 1 ∧
    ¬ |distance (bulgeCenter (0, 0) (2, 0) (-1)) (0, 0) - bulgeRadius (0, 0) (2, 0) (-1)|
        ≤ 1 / 1000000 * |bulgeRadius (0, 0) (2, 0) (-1)| := by
  have hd : distance (((0 : ℝ), (0 : ℝ)) : Vec2) ((2 : ℝ), (0 : ℝ)) = 2 := by
    rw [distance_mk]
    rw [show (((0 : ℝ) - (((2 : ℝ), (0 : ℝ)) : Vec2).1) ^ 2 +
        ((0 : ℝ) - (((2 : ℝ), (0 : ℝ)) : Vec2).2) ^ 2) = 4 by norm_num]
    rw [show (4 : ℝ) = 2 ^ 2 by norm_num, Real.sqrt_sq (by norm_num : (0 : ℝ) ≤ 2)]
  have hsin : Real.sin (bulgeAngle (-1) / 2) = -1 := by
    rw [bulgeAngle_half, Real.arctan_neg, Real.arctan_one]
    rw [show (2 : ℝ) * -(Real.pi / 4) = -(Real.pi / 2) by ring]
    rw [Real.sin_neg, Real.sin_pi_div_two]
  have hcos : Real.cos (bulgeAngle (-1) / 2) = 0 := by
    rw [bulgeAngle_half, Real.arctan_neg, Real.arctan_one]
    rw [show (2 : ℝ) * -(Real.pi / 4) = -(Real.pi / 2) by ring]
    rw [Real.cos_neg, Real.cos_pi_div_two]
  have hr : bulgeRadius (0, 0) (2, 0) (-1) = -1 := by
    unfold bulgeRadius
    rw [hd, hsin]
    norm_num
  have hcen : bulgeCenter (0, 0) (2, 0) (-1) = (1, 0) := by
    rw [bulgeCenter_eq, hd, hr, hcos]
    norm_num [Prod.ext_iff]
  have hdist : distance (bulgeCenter (0, 0) (2, 0) (-1)) (0, 0) = 1 := by
    rw [hcen, distance_mk]
    norm_num
  exact ⟨hr, hdist, by rw [hdist, hr]; norm_num⟩

/-! Relation between the fallible and the total polyline model. -/

/-- For a pair with distinct endpoints the `normalize` call cannot raise, so
the fallible body completes and agrees with the total one. -/
theorem processPair?_of_ne (p1 p2 : Vec2) (b : ℝ) (s : St) (hp : p1 ≠ p2) :
    processPair? p1 p2 b s = some (processPair p1 p2 b s) := by
  have hm : ¬ magnitude (orthogonal_ccw (p2.1 - p1.1, p2.2 - p1.2)) = 0 := by
    rw [magnitude_orthogonal]
    exact (distance_pos p1 p2 hp).ne'
  unfold processPair? processPair
  by_cases h1 : |b| < 0.001
  · rw [if_pos h1, if_pos h1]
  · rw [if_neg h1, if_neg h1, if_neg hm]

/-- Whenever the fallible pair body completes, its result is the total
one. -/
theorem processPair?_some (p1 p2 : Vec2) (b : ℝ) (s s' : St)
    (h : processPair? p1 p2 b s = some s') : processPair p1 p2 b s = s' := by
  unfold processPair? at h
  unfold processPair
  by_cases h1 : |b| < 0.001
  · rw [if_pos h1] at h
    rw [if_pos h1]
    exact Option.some.inj h
  · rw [if_neg h1] at h
    rw [if_neg h1]
    by_cases h2 : magnitude (orthogonal_ccw (p2.1 - p1.1, p2.2 - p1.2)) = 0
    · rw [if_pos h2] at h
      exact absurd h (by simp)
    · rw [if_neg h2] at h
      exact Option.some.inj h

theorem lwpolyLoop?_zero (points : List (ℝ × ℝ × ℝ)) (cl : Bool) (i : ℕ) (s : St) :
    lwpolyLoop? points cl 0 i s = some s := rfl

theorem lwpolyLoop?_stop (points : List (ℝ × ℝ × ℝ)) (cl : Bool) (fuel i : ℕ) (s : St)
    (h : ¬ i < points.length) : lwpolyLoop? points cl fuel i s = some s := by
  cases fuel with
  | zero => rfl
  | succ f => simp only [lwpolyLoop?]; rw [dif_neg h]

theorem lwpolyLoop?_break (points : List (ℝ × ℝ × ℝ)) (cl : Bool) (fuel i : ℕ) (s : St)
    (h : i < points.length) (hb : (i + 1) % points.length = 0) (hc : cl = false) :
    lwpolyLoop? points cl (fuel + 1) i s = some s := by
  simp only [lwpolyLoop?]
  rw [dif_pos h]
  simp only [hb, hc, and_self, if_true]

theorem lwpolyLoop?_step (points : List (ℝ × ℝ × ℝ)) (cl : Bool) (fuel i : ℕ) (s : St)
    (h : i < points.length) (hnb : ¬((i + 1) % points.length = 0 ∧ cl = false)) :
    lwpolyLoop? points cl (fuel + 1) i s =
      (processPair? ((points.get ⟨i, h⟩).1, (points.get ⟨i, h⟩).2.1)
          ((points.get ⟨(i + 1) % points.length,
              Nat.mod_lt _ (Nat.lt_of_le_of_lt (Nat.zero_le i) h)⟩).1,
           (points.get ⟨(i + 1) % points.length,
              Nat.mod_lt _ (Nat.lt_of_le_of_lt (Nat.zero_le i) h)⟩).2.1)
          ((points.get ⟨i, h⟩).2.2) s).bind
        (lwpolyLoop? points cl fuel (i + 1)) := by
  simp only [lwpolyLoop?]
  rw [dif_pos h, if_neg hnb]
  by_cases h0 : i = 0
  · subst h0; rfl
  · simp only [h0, if_false]

/-- Whenever the fallible loop completes, its result is the total loop's. -/
theorem lwpolyLoop?_some (points : List (ℝ × ℝ × ℝ)) (cl : Bool) :
    ∀ fuel i (s s' : St), lwpolyLoop? points cl fuel i s = some s' →
      lwpolyLoop points cl fuel i s = s' := by
  intro fuel
  induction fuel with
  | zero =>
    intro i s s' h
    rw [lwpolyLoop?_zero] at h
    rw [lwpolyLoop_zero]
    exact Option.some.inj h
  | succ f ih =>
    intro i s s' h
    by_cases hi : i < points.length
    · by_cases hb : (i + 1) % points.length = 0 ∧ cl = false
      · rw [lwpolyLoop?_break points cl f i s hi hb.1 hb.2] at h
        rw [lwpolyLoop_break points cl f i s hi hb.1 hb.2]
        exact Option.some.inj h
      · rw [lwpolyLoop?_step points cl f i s hi hb] at h
        rw [Option.bind_eq_some] at h
        obtain ⟨s1, hP, h2⟩ := h
        rw [lwpolyLoop_step points cl f i s hi hb, processPair?_some _ _ _ _ _ hP]
        exact ih _ _ _ h2
    · rw [lwpolyLoop?_stop points cl _ i s hi] at h
      rw [lwpolyLoop_stop points cl _ i s hi]
      exact Option.some.inj h

/-- Whenever the fallible polyline run completes, its result is the total
model's. -/
theorem process_lwpolyline?_some (points : List (ℝ × ℝ × ℝ)) (cl : Bool) (s s' : St)
    (h : process_lwpolyline? points cl s = some s') :
    process_lwpolyline points cl s = s' := by
  cases points with
  | nil => exact Option.some.inj h
  | cons p rest => exact lwpolyLoop?_some _ _ _ _ _ _ h

/-- C7 (counterexample): the closed two-vertex polyline with coincident
vertices `(0, 0)` and `bulge = 1` crashes the conversion mid-loop — the
source raises `ZeroDivisionError` inside `Vec2.normalize` — so no completed
segment sequence is produced at all, not the two segments the claim
demands. -/
theorem polyline_crash_cex :
    process_lwpolyline? [((0 : ℝ), (0 : ℝ), (1 : ℝ)), ((0 : ℝ), (0 : ℝ), (1 : ℝ))] true
      (init 1000 6000 6000) = none := by
  simp [process_lwpolyline?, lwpolyLoop?, processPair?, magnitude, orthogonal_ccw]
  norm_num

/-- C7 (amended): for every polyline whose processing completes — i.e. no
processed pair has coincident endpoints with `|bulge| ≥ 1e-3`, which makes
the source raise `ZeroDivisionError` in `normalize` and abort — normalization
emits exactly N cutting commands when the polyline is closed and N - 1 when
it is open. -/
theorem polyline_segment_count (points : List (ℝ × ℝ × ℝ)) (cl : Bool) (s s' : St)
    (h : process_lwpolyline? points cl s = some s') :
    cutCount s'.gcode
      = cutCount s.gcode + (if cl then points.length else points.length - 1) := by
  rw [← process_lwpolyline?_some points cl s s' h]
  exact cutCount_process_lwpolyline points cl s

/-- Witness for `polyline_segment_count`: the open two-vertex polyline
`(0,0) → (1,0)` completes and emits exactly one cut. -/
theorem polyline_segment_count_witness :
    process_lwpolyline? [((0 : ℝ), (0 : ℝ), (0 : ℝ)), ((1 : ℝ), (0 : ℝ), (0 : ℝ))] false
        (init 1000 6000 6000)
      = some (linear_move 1 0 (rapid_move 0 0 (init 1000 6000 6000))) ∧
    cutCount (linear_move 1 0 (rapid_move 0 0 (init 1000 6000 6000))).gcode
      = cutCount (init 1000 6000 6000).gcode +
          (if (false : Bool)
           then ([((0 : ℝ), (0 : ℝ), (0 : ℝ)), ((1 : ℝ), (0 : ℝ), (0 : ℝ))] :
              List (ℝ × ℝ × ℝ)).length
           else ([((0 : ℝ), (0 : ℝ), (0 : ℝ)), ((1 : ℝ), (0 : ℝ), (0 : ℝ))] :
              List (ℝ × ℝ × ℝ)).length - 1) := by
  have he : process_lwpolyline? [((0 : ℝ), (0 : ℝ), (0 : ℝ)), ((1 : ℝ), (0 : ℝ), (0 : ℝ))]
      false (init 1000 6000 6000)
      = some (linear_move 1 0 (rapid_move 0 0 (init 1000 6000 6000))) := by
    norm_num [process_lwpolyline?, lwpolyLoop?, processPair?]
  exact ⟨he, polyline_segment_count _ _ _ _ he⟩

/-- C2 (amended): for every vertex pair with distinct endpoints and
`|bulge| ≥ 1e-3` — including those whose `sin(angle/2)` is within 1e-9 of
zero — the reconstruction completes without signalling any error, performs
the division and emits exactly one arc command; no `DegenerateGeometry`
path exists in the code.  (For coincident endpoints the source instead
raises `ZeroDivisionError` in `normalize`, still not a degeneracy guard.) -/
theorem bulge_division_unguarded (s : St) (p1 p2 : Vec2) (b : ℝ)
    (hp : p1 ≠ p2) (hb : ¬ |b| < 0.001) :
    processPair? p1 p2 b s = some (processPair p1 p2 b s) ∧
    arcCount (processPair p1 p2 b s).gcode = arcCount s.gcode + 1 := by
  refine ⟨processPair?_of_ne p1 p2 b s hp, ?_⟩
  unfold processPair
  rw [if_neg hb]
  exact arcCount_arc_move _ _ _ _ _ _

/-- Witness for `bulge_division_unguarded` at `p1 = (0,0)`, `p2 = (1,0)`,
`b = 1` from a fresh converter. -/
theorem bulge_division_unguarded_witness :
    (((0 : ℝ), (0 : ℝ)) : Vec2) ≠ ((1 : ℝ), (0 : ℝ)) ∧ ¬ |(1 : ℝ)| < 0.001 ∧
    (processPair? (0, 0) (1, 0) 1 (init 1000 6000 6000)
        = some (processPair (0, 0) (1, 0) 1 (init 1000 6000 6000)) ∧
     arcCount (processPair (0, 0) (1, 0) 1 (init 1000 6000 6000)).gcode
        = arcCount (init 1000 6000 6000).gcode + 1) :=
  ⟨by norm_num [Prod.ext_iff], by norm_num,
   bulge_division_unguarded (init 1000 6000 6000) (0, 0) (1, 0) 1
     (by norm_num [Prod.ext_iff]) (by norm_num)⟩

end

end Dxf2Gcode
